import Mathlib

/-!
Verification development for the funparse signature-to-parser compiler
(src/funparse/api.py).  The Python source is shallowly embedded: each
Python function of the core is translated into an executable Lean
definition over an explicit model of Python values, types and defaults.
The argparse engine (an external library consumed through a narrow
configuration/query surface) is modelled by an executable token parser
covering exactly the features the compiler uses: store / store_true /
store_false / append actions, defaults, choices, a one-or-more positional
arity, and the parser error channel (`error` raising instead of exiting).
-/

set_option maxHeartbeats 1000000

deriving instance DecidableEq for Except

namespace Funparse

/-- A scalar Python value as produced by the value constructors: `None`,
booleans, integers, floats (kept as their source token; the floating-point
grammar itself is not modelled), strings, and enumeration members
(identified by the enum type name and the member name). -/
inductive Scalar where
  | none
  | bool (b : Bool)
  | int (n : Int)
  | float (tok : String)
  | str (s : String)
  | enumMember (ty : String) (member : String)
deriving DecidableEq, Repr

/-- A Python value appearing in a parse result, a default, or bound state:
either a scalar or a list of scalars (the result of `append` actions and
of one-or-more positional collection). -/
inductive Value where
  | scalar (s : Scalar)
  | list (xs : List Scalar)
deriving DecidableEq, Repr

/-- A parameter default: either the `inspect.Parameter.empty` sentinel or a
value. -/
inductive PyDefault where
  | empty
  | val (v : Value)
deriving DecidableEq, Repr

/-- Test against the `Parameter.empty` sentinel (`default is Parameter.empty`). -/
def PyDefault.isEmpty : PyDefault → Bool
  | .empty => true
  | .val _ => false

/-- An enumeration class: its name and the ordered list of member names
(`enum_type[w]` looks a member up by name; `list(enum_type)` is the member
list in declaration order). -/
structure EnumDef where
  ename : String
  members : List String
deriving DecidableEq, Repr

/-- A plain Python class usable as a parameter annotation: the primitives,
an enumeration class, `NoneType`, or any other class (unsupported). -/
inductive BasicType where
  | bool
  | int
  | float
  | str
  | enum (e : EnumDef)
  | noneType
  | other (cname : String)
deriving DecidableEq, Repr

/-- A member of a `types.UnionType`.  Python flattens unions, so a union
argument is never itself a union: it is a plain class or a generic alias. -/
inductive NonUnionType where
  | basic (b : BasicType)
  | generic (originIsSequence : Bool) (originName : String) (args : List BasicType)
deriving DecidableEq, Repr

/-- A parameter annotation as seen by `_make_parser`: a plain class, a
`GenericAlias` (with `typing.get_origin` abstracted to whether the origin
is a `Sequence` subclass, plus the origin name and `typing.get_args`), a
`types.UnionType`, an `Annotated[...]` alias carrying an optional `Doc`
annotation, or the `Parameter.empty` sentinel for an untyped parameter. -/
inductive PyType where
  | basic (b : BasicType)
  | generic (originIsSequence : Bool) (originName : String) (args : List BasicType)
  | union (args : List NonUnionType)
  | annotated (inner : BasicType) (doc : Option String)
  | empty
deriving DecidableEq, Repr

/-- The `inspect.Parameter.kind` values the compiler distinguishes. -/
inductive ParamKind where
  | positionalOrKeyword
  | varPositional
  | keywordOnly
deriving DecidableEq, Repr

def ParamKind.isVarPositional : ParamKind → Bool
  | .varPositional => true
  | _ => false

/-- One declared parameter of the wrapped callable: name, kind, type
annotation and default, as yielded by `inspect.signature(fn).parameters`. -/
structure Param where
  name : String
  kind : ParamKind
  annot : PyType
  default : PyDefault
deriving DecidableEq, Repr

/-- Compile-time exception classes raised by `_make_parser` and the
classifiers. -/
inductive PyError where
  | runtimeError (msg : String)
  | typeError (msg : String)
  | syntaxError (msg : String)
  | valueError (msg : String)
  | nameError (msg : String)
deriving DecidableEq, Repr

/-- A value constructor (the `type=` argument handed to the engine): a plain
class used as a converter, `_bool_from_str`, or a
`functools.partial(_enum_from_str, enum_type)`. -/
inductive Ctor where
  | pyClass (b : BasicType)
  | boolFromStr
  | enumFromStr (e : EnumDef)
deriving DecidableEq, Repr

/-- One registered argument on the configuration surface: the external
argument name handed to `add_argument`, the destination (the parameter
name the parsed value is stored under), the action string, the optional
converter and choice set, the default, and whether `nargs="+"` was set.
The help-text fields of the source (presentation only) are not modelled. -/
structure ArgSpec where
  argName : String
  dest : String
  action : String
  ctor : Option Ctor
  choices : Option (List String)
  default : PyDefault
  nargsPlus : Bool
deriving DecidableEq, Repr

/-- Which `error` method the constructed parser carries:
`argparse.ArgumentParser.error` prints usage and exits the process;
the funparse `ArgumentParser` subclass (api.py line 42) overrides it to
raise a `RuntimeError` instead. -/
inductive ParserType where
  | apArgumentParser
  | fpArgumentParser
deriving DecidableEq, Repr

/-- The compiled configuration: the parser class it was built from plus the
ordered registered arguments. -/
structure ParserSpec where
  ptype : ParserType
  args : List ArgSpec
deriving DecidableEq, Repr

/- ----------------------------------------------------------------- -/
/- The Type Classifier (api.py lines 63-128).                        -/
/- ----------------------------------------------------------------- -/

/-- List-level prefix test (kernel-computable). -/
def charsPrefix : List Char → List Char → Bool
  | [], _ => true
  | _ :: _, [] => false
  | c :: cs, d :: ds => c = d && charsPrefix cs ds

/-- `s.startswith(pfx)` over the underlying character lists. -/
def strStartsWith (s pfx : String) : Bool := charsPrefix pfx.data s.data

/-- `base_name.replace("_", "-")`: single-character pattern and
replacement, so a per-character map. -/
def replaceUnderscores (s : String) : String :=
  ⟨s.data.map (fun c => if c = (Char.ofNat 95) then Char.ofNat 45 else c)⟩

/-- Python `str.lower()`, modelled as the per-character ASCII case map. -/
def strLower (s : String) : String := ⟨s.data.map Char.toLower⟩

/-- Python `str.upper()`, modelled as the per-character ASCII case map. -/
def strUpper (s : String) : String := ⟨s.data.map Char.toUpper⟩

/-- `make_argument_name` (api.py line 63): a dash-prefixed long flag with
underscores replaced by hyphens when the argument is optional, the bare
name otherwise. -/
def make_argument_name (base_name : String) (optional : Bool) : String :=
  if optional then "--" ++ replaceUnderscores base_name else base_name

/-- `johnny_simple` (api.py line 69): classify a plain class annotation
together with its default value.  The or-patterns of the source `match`
are rendered as ordered cases. -/
def johnny_simple (in_type : BasicType) (default_val : PyDefault) :
    Except PyError (String × Ctor × Option (List String)) :=
  match in_type, default_val with
  | .bool, .val (.scalar (.bool true)) => .ok ("store_false", .pyClass .bool, none)
  | .bool, .val (.scalar (.bool false)) => .ok ("store_true", .pyClass .bool, none)
  | .bool, .empty => .ok ("store", .boolFromStr, none)
  | .enum e, _ => .ok ("store", .enumFromStr e, some e.members)
  | .int, _ => .ok ("store", .pyClass .int, none)
  | .float, _ => .ok ("store", .pyClass .float, none)
  | .str, _ => .ok ("store", .pyClass .str, none)
  | _, _ => .error (.runtimeError "unsupported type")

/-- `johnny_generic` (api.py line 93): a `GenericAlias` whose origin is a
`Sequence` subclass with exactly one type argument becomes an `append`
action whose converter is the element class; anything else is rejected. -/
def johnny_generic (origin_is_seq : Bool) (origin_name : String)
    (type_args : List BasicType) (_default_val : PyDefault) :
    Except PyError (String × Ctor × Option (List String)) :=
  match origin_is_seq, type_args with
  | true, [single_type] => .ok ("append", .pyClass single_type, none)
  | _, _ => .error (.runtimeError ("unsupported generic type: " ++ origin_name))

/-- `_bool_from_str` (api.py line 105).  The or-patterns of the source
`match word.lower()` are rendered as disjunctions. -/
def _bool_from_str (word : String) : Except String Bool :=
  if strLower word = "y" ∨ strLower word = "yes" ∨ strLower word = "true" ∨ strLower word = "1" then
    .ok true
  else if strLower word = "n" ∨ strLower word = "no" ∨ strLower word = "false" ∨ strLower word = "0" then
    .ok false
  else
    .error ("invalid value for boolean: " ++ word)

/-- `enum_type[word]`: look a member up by exact name. -/
def enumGetItem (e : EnumDef) (word : String) : Option Scalar :=
  if word ∈ e.members then some (.enumMember e.ename word) else none

/-- `_enum_from_str` (api.py line 115): try the exact token, then the token
uppercased, then fail. -/
def _enum_from_str (e : EnumDef) (word : String) : Except String Scalar :=
  match enumGetItem e word with
  | some m => .ok m
  | none =>
    match enumGetItem e (strUpper word) with
    | some m => .ok m
    | none => .error ("no name " ++ word ++ " in " ++ e.ename)

/-- `_is_optional_type` (api.py line 123): a union of exactly two members,
one of which is `NoneType`. -/
def _is_optional_type (args : List NonUnionType) : Bool :=
  decide (args.length = 2 ∧ NonUnionType.basic .noneType ∈ args)

/-- `list.index(type(None))` over the union arguments (the source only calls
this when `NoneType` is present). -/
def indexOfNone : List NonUnionType → Nat
  | [] => 0
  | t :: ts => if t = .basic .noneType then 0 else indexOfNone ts + 1

/-- `_unwrap_optional_type` (api.py line 127):
`opt.__args__[opt.__args__.index(type(None)) - 1]`, with Python's negative
indexing (index `-1` is the last element) made explicit. -/
def _unwrap_optional_type (args : List NonUnionType) : NonUnionType :=
  let i : Int := Int.ofNat (indexOfNone args)
  let j : Int := i - 1
  let k : Int := if j < 0 then j + Int.ofNat args.length else j
  args.getD k.toNat (.basic .noneType)

/-- Inject a union member back into the annotation type. -/
def liftNonUnion : NonUnionType → PyType
  | .basic b => .basic b
  | .generic s n a => .generic s n a

/- ----------------------------------------------------------------- -/
/- The Signature Compiler (api.py lines 131-217).                    -/
/- ----------------------------------------------------------------- -/

/-- The union-handling prologue of the per-parameter loop (api.py lines
157-162): a union annotation must be optional-of-one-type; it is unwrapped
and, when no explicit default was given, the effective default becomes
`None`. -/
def resolveOptional (annot : PyType) (default : PyDefault) :
    Except PyError (PyType × PyDefault) :=
  match annot with
  | .union args =>
    if _is_optional_type args then
      .ok (liftNonUnion (_unwrap_optional_type args),
           if default = .empty then .val (.scalar .none) else default)
    else
      .error (.typeError "unsupported union")
  | t => .ok (t, default)

/-- The `match raw_type` dispatch of the per-parameter loop (api.py lines
164-177): `Parameter.empty` is a syntax error; a plain class goes to
`johnny_simple`; an `Annotated` alias classifies its inner class (the
attached documentation only feeds help text, which is not modelled); a
`GenericAlias` goes to `johnny_generic`.  A union never reaches this match
(it was resolved by `resolveOptional`). -/
def classify (rawType : PyType) (default : PyDefault) (name : String) :
    Except PyError (String × Ctor × Option (List String)) :=
  match rawType with
  | .empty => .error (.syntaxError ("untyped parameters are not supported: " ++ name))
  | .basic b => johnny_simple b default
  | .annotated inner _doc => johnny_simple inner default
  | .generic s n ar => johnny_generic s n ar default
  | .union _ => .error (.nameError "unmatched annotation")

/-- The `match action` of the per-parameter loop (api.py lines 183-193):
`store` and `append` forward the converter and choice set to the engine;
`store_true` / `store_false` forward neither; any other action string is a
`ValueError` ("unsupported action"). -/
def applyActionParams (action : String) (ctor : Ctor)
    (choices : Option (List String)) :
    Except PyError (Option Ctor × Option (List String)) :=
  if action = "append" then .ok (some ctor, choices)
  else if action = "store" then .ok (some ctor, choices)
  else if action = "store_true" ∨ action = "store_false" then .ok (none, none)
  else .error (.valueError ("unsupported action: " ++ action))

/-- The body of the per-parameter loop of `_make_parser` for one
non-ignored parameter (api.py lines 154-215), producing the registered
argument: resolve an optional union, classify, apply the action-specific
engine parameters, and compute the external argument name from whether the
(possibly synthesized) default is present. -/
def processParamBody (p : Param) : Except PyError ArgSpec :=
  match resolveOptional p.annot p.default with
  | .error e => .error e
  | .ok (rawType, default) =>
    match classify rawType default p.name with
    | .error e => .error e
    | .ok (action, ctor, choices) =>
      match applyActionParams action ctor choices with
      | .error e => .error e
      | .ok (ctorOpt, choicesOpt) =>
        .ok { argName := make_argument_name p.name (!default.isEmpty)
              dest := p.name
              action := action
              ctor := ctorOpt
              choices := choicesOpt
              default := default
              nargsPlus := p.kind.isVarPositional }

/-- `ignore is not None and name in ignore` (api.py line 152). -/
def isIgnored (ignore : Option (List String)) (name : String) : Bool :=
  match ignore with
  | some ig => decide (name ∈ ig)
  | none => false

/-- The parameter loop of `_make_parser` (api.py lines 151-215): skip
ignored parameters, register one argument per remaining parameter in
order, and record the name of the variadic-positional parameter. -/
def makeParserLoop (ignore : Option (List String)) :
    List Param → List ArgSpec → Option String →
    Except PyError (List ArgSpec × Option String)
  | [], acc, vn => .ok (acc, vn)
  | p :: ps, acc, vn =>
    if isIgnored ignore p.name then
      makeParserLoop ignore ps acc vn
    else
      match processParamBody p with
      | .error e => .error e
      | .ok spec =>
        makeParserLoop ignore ps (acc ++ [spec])
          (if p.kind.isVarPositional then some p.name else vn)

/-- `_make_parser` (api.py line 131), restricted to the
`parse_docstring=None` path (description and per-argument help text are
presentation only and not modelled): build the parser of the requested
class with `exit_on_error=False` and register every non-ignored
parameter. -/
def makeParser (params : List Param) (ignore : Option (List String))
    (parser_type : ParserType) : Except PyError (ParserSpec × Option String) :=
  match makeParserLoop ignore params [] none with
  | .error e => .error e
  | .ok (argsList, vn) => .ok ({ ptype := parser_type, args := argsList }, vn)

/- ----------------------------------------------------------------- -/
/- Command Handle and Dispatcher (api.py lines 281-332).             -/
/- ----------------------------------------------------------------- -/

/-- The Command handle: the compiled parser, the recorded
variadic-positional name, and the bound state (`_state`).  The wrapped
callable itself is left abstract: `run` returns the call record (leading
positional arguments, keyword arguments) that the callable is invoked
with. -/
structure Command where
  parser : ParserSpec
  varargName : Option String
  state : List (String × Value)
deriving DecidableEq, Repr

/-- Invocation-time outcomes other than a normal call: a `SystemExit`
(process termination from `argparse.ArgumentParser.error`), a raised
`RuntimeError` (the funparse override of `error`), a raised
`argparse.ArgumentError` (re-raised because the parser is constructed
with `exit_on_error=False`), the `TypeError` Python raises when two `**`
unpackings in one call share a key, and other `TypeError`s at call
time. -/
inductive RunError where
  | systemExit (msg : String)
  | runtimeError (msg : String)
  | argumentError (msg : String)
  | duplicateKeyword (name : String)
  | typeError (msg : String)
deriving DecidableEq, Repr

/-- Everything except a `SystemExit` is an exception the embedding caller
can catch. -/
def RunError.isCatchable : RunError → Bool
  | .systemExit _ => false
  | _ => true

/-- The `error` method of the parser class: the argparse base class exits
the process; the funparse subclass raises (api.py line 51). -/
def parserErrorMethod : ParserType → String → RunError
  | .apArgumentParser, msg => .systemExit msg
  | .fpArgumentParser, msg => .runtimeError msg

/- ----------------------------------------------------------------- -/
/- The external parsing engine (argparse), as consumed by the core.  -/
/- ----------------------------------------------------------------- -/

/-- A parse-time failure, tagged with the channel argparse reports it on:
`viaError` failures are routed through the parser's `error` method
(unrecognized arguments, missing required arguments); `viaArgumentError`
failures are `argparse.ArgumentError`s, which are re-raised because the
parser was constructed with `exit_on_error=False` (bad value conversion,
bad choice, a flag missing its value). -/
inductive ParseFailure where
  | viaError (msg : String)
  | viaArgumentError (msg : String)
deriving DecidableEq, Repr

/-- Deliver a parse failure through the parser class it occurred on. -/
def liftFailure (pt : ParserType) : ParseFailure → RunError
  | .viaError m => parserErrorMethod pt m
  | .viaArgumentError m => .argumentError m

/-- Apply a value constructor to one token.  `int` parsing follows the
Python `int()` call on decimal tokens; the `float()` grammar is not
modelled (the token is kept); calling `bool` on a token is Python
truthiness (argparse never does so for the flag polarities, whose actions
carry no converter); calling an enum class or another plain class on a
token is not a name lookup and is modelled as a conversion failure. -/
def applyCtor : Ctor → String → Except String Scalar
  | .pyClass .str, s => .ok (.str s)
  | .pyClass .int, s =>
    match s.toInt? with
    | some n => .ok (.int n)
    | none => .error ("invalid int value: " ++ s)
  | .pyClass .float, s => .ok (.float s)
  | .pyClass .bool, s => .ok (.bool (s != ""))
  | .pyClass (.enum e), s => .error ("invalid value for " ++ e.ename ++ ": " ++ s)
  | .pyClass .noneType, s => .error ("NoneType is not callable: " ++ s)
  | .pyClass (.other n), s => .error ("unsupported converter " ++ n ++ ": " ++ s)
  | .boolFromStr, s =>
    match _bool_from_str s with
    | .ok b => .ok (.bool b)
    | .error m => .error m
  | .enumFromStr e, s => _enum_from_str e s

/-- argparse's choice validation on the converted value.  The compiler only
ever passes a choice set for enumerations, where it is the full member
list, so a converted member always passes. -/
def choicesOk (choices : Option (List String)) (v : Scalar) : Bool :=
  match choices, v with
  | none, _ => true
  | some cs, .enumMember _ m => decide (m ∈ cs)
  | some _, _ => false

/-- Convert one token for a registered argument: apply the converter (no
converter stores the raw string, argparse's `type=None`) and validate the
choice set. -/
def convert (s : ArgSpec) (tok : String) : Except String Scalar
  :=
  match s.ctor with
  | none => .ok (.str tok)
  | some c =>
    match applyCtor c tok with
    | .error m => .error ("argument " ++ s.argName ++ ": " ++ m)
    | .ok v =>
      if choicesOk s.choices v then .ok v
      else .error ("argument " ++ s.argName ++ ": invalid choice: " ++ tok)

/-- Store a value under a destination in the namespace, replacing an
existing binding. -/
def setKey : List (String × Value) → String → Value → List (String × Value)
  | [], k, v => [(k, v)]
  | (k2, v2) :: rest, k, v =>
    if k2 = k then (k, v) :: rest else (k2, v2) :: setKey rest k v

/-- `getattr(namespace, dest, ...)`. -/
def lookupKey : List (String × Value) → String → Option Value
  | [], _ => none
  | (k2, v) :: rest, k => if k2 = k then some v else lookupKey rest k

/-- Dictionary key membership. -/
def hasKey (ns : List (String × Value)) (k : String) : Bool :=
  decide (k ∈ ns.map Prod.fst)

/-- The `append` action: extend the list stored under the destination
(starting a fresh list when the current value is not one, as argparse does
for a `None` default). -/
def appendValue (ns : List (String × Value)) (k : String) (v : Scalar) :
    List (String × Value) :=
  match lookupKey ns k with
  | some (.list xs) => setKey ns k (.list (xs ++ [v]))
  | _ => setKey ns k (.list [v])

/-- The initial namespace: every registered argument contributes its
default (argparse uses `None` when no default was registered). -/
def initNamespace (specs : List ArgSpec) : List (String × Value) :=
  specs.map (fun s =>
    (s.dest, match s.default with
             | .empty => Value.scalar .none
             | .val v => v))

/-- Deliver a converted flag value into the namespace according to the
argument's action (`append` extends the stored list, `store` replaces). -/
def storeConverted (s : ArgSpec) (v : Scalar) (ns : List (String × Value)) :
    List (String × Value) :=
  if s.action = "append" then appendValue ns s.dest v
  else setKey ns s.dest (.scalar v)

/-- One step of the token loop, consuming a single token.  The loop state
is: the positional arguments not yet filled (`pending`, in registration
order), a one-or-more positional currently collecting tokens
(`activeVar`), a flag whose value token is expected next (`awaiting`), and
the namespace.  A `--`-prefixed token must match a registered flag:
`store_true` / `store_false` store the polarity, `store` / `append` wait
for the value token.  A plain token feeds the awaited flag if there is
one, else the collecting one-or-more positional, else the next pending
positional (a one-or-more positional starts collecting). -/
def parseStep (opts : List ArgSpec) (tok : String) (pending : List ArgSpec)
    (activeVar awaiting : Option ArgSpec) (ns : List (String × Value)) :
    Except ParseFailure
      (List ArgSpec × Option ArgSpec × Option ArgSpec × List (String × Value)) :=
  match awaiting with
  | some s =>
    match convert s tok with
    | .error m => .error (.viaArgumentError m)
    | .ok v => .ok (pending, activeVar, none, storeConverted s v ns)
  | none =>
    match strStartsWith tok "--" with
    | true =>
      match opts.find? (fun s => s.argName == tok) with
      | none => .error (.viaError ("unrecognized arguments: " ++ tok))
      | some s =>
        if s.action = "store_true" then
          .ok (pending, activeVar, none, setKey ns s.dest (.scalar (.bool true)))
        else if s.action = "store_false" then
          .ok (pending, activeVar, none, setKey ns s.dest (.scalar (.bool false)))
        else if s.action = "store" ∨ s.action = "append" then
          .ok (pending, activeVar, some s, ns)
        else
          .error (.viaArgumentError ("unknown action: " ++ s.action))
    | false =>
      match activeVar with
      | some s =>
        match convert s tok with
        | .error m => .error (.viaArgumentError m)
        | .ok v => .ok (pending, activeVar, none, appendValue ns s.dest v)
      | none =>
        match pending with
        | [] => .error (.viaError ("unrecognized arguments: " ++ tok))
        | s :: ps =>
          match convert s tok with
          | .error m => .error (.viaArgumentError m)
          | .ok v =>
            if s.nargsPlus then
              .ok (ps, some s, none, setKey ns s.dest (.list [v]))
            else
              .ok (ps, none, none, setKey ns s.dest (.scalar v))

/-- The token loop of `parse_args`: run `parseStep` over the tokens.  At
the end, a flag still awaiting its value is an error, and leftover pending
positionals are missing required arguments. -/
def parseLoop (opts : List ArgSpec) (toks : List String)
    (pending : List ArgSpec) (activeVar : Option ArgSpec)
    (awaiting : Option ArgSpec) (ns : List (String × Value)) :
    Except ParseFailure (List (String × Value)) :=
  match toks with
  | [] =>
    match awaiting with
    | some s =>
      .error (.viaArgumentError ("argument " ++ s.argName ++ ": expected one argument"))
    | none =>
      if pending.isEmpty then .ok ns
      else .error (.viaError "the following arguments are required")
  | tok :: rest =>
    match parseStep opts tok pending activeVar awaiting ns with
    | .error f => .error f
    | .ok (p2, av2, aw2, ns2) => parseLoop opts rest p2 av2 aw2 ns2

/-- `parser.parse_args(tokens)` followed by `vars(...)`: run the token loop
over the registered arguments and deliver any failure through the parser
class's error channel. -/
def parse_args (pt : ParserType) (specs : List ArgSpec) (toks : List String) :
    Except RunError (List (String × Value)) :=
  match parseLoop (specs.filter (fun s => strStartsWith s.argName "--")) toks
      (specs.filter (fun s => !strStartsWith s.argName "--")) none none
      (initNamespace specs) with
  | .ok ns => .ok ns
  | .error f => .error (liftFailure pt f)

/- ----------------------------------------------------------------- -/
/- Dispatch.                                                         -/
/- ----------------------------------------------------------------- -/

/-- `parsed_args.pop(vararg_name)`: the popped value and the namespace
without that key. -/
def popKey (ns : List (String × Value)) (k : String) :
    Option (Value × List (String × Value)) :=
  match lookupKey ns k with
  | none => none
  | some v => some (v, ns.filter (fun kv => decide (kv.1 ≠ k)))

/-- The keyword merge of `self._fn(*varargs, **self._state, **parsed_args)`:
Python builds one keyword mapping from the two unpackings and raises a
`TypeError` ("got multiple values for keyword argument") on the first key
present in both. -/
def mergeKwargs : List (String × Value) → List (String × Value) →
    Except RunError (List (String × Value))
  | st, [] => .ok st
  | st, (k, v) :: rest =>
    if hasKey st k then .error (.duplicateKeyword k)
    else mergeKwargs (st ++ [(k, v)]) rest

/-- `Command.run` (api.py line 318): parse the tokens, pop the
variadic-positional entry out of the parsed values if one was recorded,
and invoke the wrapped callable with the popped elements as leading
positional arguments and the bound state merged with the remaining parsed
values as keyword arguments.  The result is the call record handed to the
wrapped callable. -/
def Command.run (self : Command) (cmd_args : List String) :
    Except RunError (List Scalar × List (String × Value)) :=
  match parse_args self.parser.ptype self.parser.args cmd_args with
  | .error e => .error e
  | .ok parsed_args =>
    match self.varargName with
    | none =>
      match mergeKwargs self.state parsed_args with
      | .error e => .error e
      | .ok kw => .ok ([], kw)
    | some n =>
      match popKey parsed_args n with
      | none => .error (.typeError ("KeyError: " ++ n))
      | some (Value.scalar _, _) => .error (.typeError "argument unpacking failed")
      | some (Value.list vs, rest) =>
        match mergeKwargs self.state rest with
        | .error e => .error e
        | .ok kw => .ok (vs, kw)

/-- `Command.with_state` (api.py line 309).  The method first rebinds the
receiver's `_state` to the supplied keyword set (line 310) and then builds
the new handle; since the embedding is pure, the method returns the pair
(receiver after the call, new handle). -/
def Command.with_state (self : Command) (kwargs : List (String × Value)) :
    Command × Command :=
  ({ self with state := kwargs },
   { parser := self.parser, varargName := self.varargName, state := kwargs })

/-- `as_arg_parser_inner` (api.py line 262): compile the signature with the
requested parser class and wrap the result in a fresh handle with empty
bound state. -/
def asArgParserInner (params : List Param) (ignore : Option (List String))
    (parser_type : ParserType) : Except PyError Command :=
  match makeParser params ignore parser_type with
  | .error e => .error e
  | .ok (parser, vn) => .ok { parser := parser, varargName := vn, state := [] }

/-- `as_arg_parser` (api.py line 240) applied to a callable: the default
`parser_type` is the funparse `ArgumentParser` subclass whose `error`
raises instead of exiting. -/
def asArgParser (params : List Param) (ignore : Option (List String)) :
    Except PyError Command :=
  asArgParserInner params ignore .fpArgumentParser

/- ----------------------------------------------------------------- -/
/- Python call binding for `Command.run`'s own signature.            -/
/- ----------------------------------------------------------------- -/

/-- Python's binding of positional call arguments against a parameter list
(no keyword arguments): a parameter with no default that receives no
argument is a `TypeError`. -/
def bindPositionalCall : List Param → List Value →
    Except RunError (List (String × Value))
  | [], [] => .ok []
  | [], _ :: _ => .error (.typeError "too many positional arguments")
  | p :: ps, [] =>
    match p.default with
    | .val v =>
      match bindPositionalCall ps [] with
      | .error e => .error e
      | .ok rest => .ok ((p.name, v) :: rest)
    | .empty => .error (.typeError ("missing 1 required positional argument: " ++ p.name))
  | p :: ps, a :: more =>
    match bindPositionalCall ps more with
    | .error e => .error e
    | .ok rest => .ok ((p.name, a) :: rest)

/-- The declared parameter list of `Command.run` (api.py line 318): the
single parameter `cmd_args : list[str]`, with no default value. -/
def runMethodSig : List Param :=
  [{ name := "cmd_args", kind := .positionalOrKeyword,
     annot := .generic true "list" [.str], default := .empty }]

/- ----------------------------------------------------------------- -/
/- Lemmas about the parsing-engine model.                            -/
/- ----------------------------------------------------------------- -/

theorem setKey_keys : ∀ (ns : List (String × Value)) (k : String) (v : Value) (n : String),
    n ∈ ns.map Prod.fst → n ∈ (setKey ns k v).map Prod.fst := by
  intro ns k v
  induction ns with
  | nil => intro n h; simp at h
  | cons kv rest ih =>
    intro n h
    obtain ⟨k2, v2⟩ := kv
    simp only [List.map_cons, List.mem_cons] at h
    simp only [setKey]
    split
    · next heq =>
      simp only [List.map_cons, List.mem_cons]
      rcases h with h | h
      · exact Or.inl (by rw [h, heq])
      · exact Or.inr h
    · simp only [List.map_cons, List.mem_cons]
      rcases h with h | h
      · exact Or.inl h
      · exact Or.inr (ih n h)

theorem appendValue_keys (ns : List (String × Value)) (k : String) (v : Scalar)
    (n : String) (h : n ∈ ns.map Prod.fst) :
    n ∈ (appendValue ns k v).map Prod.fst := by
  unfold appendValue
  split <;> exact setKey_keys _ _ _ _ h

theorem storeConverted_keys (s : ArgSpec) (v : Scalar) (ns : List (String × Value))
    (n : String) (h : n ∈ ns.map Prod.fst) :
    n ∈ (storeConverted s v ns).map Prod.fst := by
  unfold storeConverted
  split
  · exact appendValue_keys _ _ _ _ h
  · exact setKey_keys _ _ _ _ h

theorem parseStep_keys (opts : List ArgSpec) (tok : String) (pending : List ArgSpec)
    (av aw : Option ArgSpec) (ns : List (String × Value))
    (p2 : List ArgSpec) (av2 aw2 : Option ArgSpec) (ns2 : List (String × Value))
    (h : parseStep opts tok pending av aw ns = .ok (p2, av2, aw2, ns2))
    (n : String) (hn : n ∈ ns.map Prod.fst) : n ∈ ns2.map Prod.fst := by
  unfold parseStep at h
  repeat' split at h
  all_goals first
    | exact Except.noConfusion h
    | (injection h with h
       have h2 := congrArg (fun q => q.2.2.2) h
       simp only at h2
       rw [← h2]
       first
         | exact setKey_keys _ _ _ _ hn
         | exact appendValue_keys _ _ _ _ hn
         | exact storeConverted_keys _ _ _ _ hn
         | exact hn)

theorem parseLoop_keys (opts : List ArgSpec) :
    ∀ (toks : List String) (pending : List ArgSpec) (av aw : Option ArgSpec)
      (ns ns2 : List (String × Value)),
      parseLoop opts toks pending av aw ns = .ok ns2 →
      ∀ n, n ∈ ns.map Prod.fst → n ∈ ns2.map Prod.fst := by
  intro toks
  induction toks with
  | nil =>
    intro pending av aw ns ns2 h n hn
    cases aw with
    | some s => rw [parseLoop] at h; exact Except.noConfusion h
    | none =>
      rw [parseLoop] at h
      split at h
      · injection h with h; subst h; exact hn
      · exact Except.noConfusion h
  | cons tok rest ih =>
    intro pending av aw ns ns2 h n hn
    rw [parseLoop] at h
    split at h
    · exact Except.noConfusion h
    · rename_i p2 av2 aw2 ns3 heq
      exact ih _ _ _ _ _ h n (parseStep_keys _ _ _ _ _ _ _ _ _ _ heq n hn)

theorem mergeKwargs_ok : ∀ (parsed st kw : List (String × Value)),
    mergeKwargs st parsed = .ok kw → kw = st ++ parsed := by
  intro parsed
  induction parsed with
  | nil =>
    intro st kw h
    injection h with h
    simp [← h]
  | cons kv rest ih =>
    intro st kw h
    obtain ⟨k2, v2⟩ := kv
    unfold mergeKwargs at h
    split at h
    · exact Except.noConfusion h
    · have h2 := ih (st ++ [(k2, v2)]) kw h
      simp [h2]

theorem mergeKwargs_dup : ∀ (parsed st : List (String × Value)) (n : String),
    n ∈ parsed.map Prod.fst → n ∈ st.map Prod.fst →
    ∃ k, mergeKwargs st parsed = .error (.duplicateKeyword k) := by
  intro parsed
  induction parsed with
  | nil => intro st n h hst; simp at h
  | cons kv rest ih =>
    intro st n h hst
    obtain ⟨k2, v2⟩ := kv
    by_cases hk : hasKey st k2 = true
    · exact ⟨k2, by unfold mergeKwargs; rw [if_pos hk]⟩
    · have hk2 : hasKey st k2 = false := by simpa using hk
      simp only [List.map_cons, List.mem_cons] at h
      rcases h with h | h
      · exact absurd (by unfold hasKey; exact decide_eq_true (h ▸ hst)) hk
      · obtain ⟨k, hkk⟩ := ih (st ++ [(k2, v2)]) n h
          (by simp only [List.map_append, List.mem_append]; exact Or.inl hst)
        refine ⟨k, ?_⟩
        unfold mergeKwargs
        rw [if_neg (by simp [hk2])]
        exact hkk

theorem mergeKwargs_error_shape : ∀ (parsed st : List (String × Value)) (e : RunError),
    mergeKwargs st parsed = .error e → ∃ k, e = .duplicateKeyword k := by
  intro parsed
  induction parsed with
  | nil => intro st e h; exact Except.noConfusion h
  | cons kv rest ih =>
    intro st e h
    obtain ⟨k2, v2⟩ := kv
    unfold mergeKwargs at h
    split at h
    · injection h with h; exact ⟨k2, h.symm⟩
    · exact ih _ _ h

theorem hasKey_eq_true_iff (ns : List (String × Value)) (k : String) :
    hasKey ns k = true ↔ k ∈ ns.map Prod.fst := by
  unfold hasKey
  exact decide_eq_true_iff

theorem hasKey_append (a b : List (String × Value)) (k : String) :
    hasKey (a ++ b) k = (hasKey a k || hasKey b k) := by
  unfold hasKey
  by_cases h1 : k ∈ a.map Prod.fst <;> by_cases h2 : k ∈ b.map Prod.fst <;>
    simp [List.map_append, List.mem_append, h1, h2]

theorem lookupKey_mem : ∀ (ns : List (String × Value)) (k : String),
    k ∈ ns.map Prod.fst → ∃ v, lookupKey ns k = some v := by
  intro ns k
  induction ns with
  | nil => intro h; simp at h
  | cons kv rest ih =>
    intro h
    obtain ⟨k2, v2⟩ := kv
    unfold lookupKey
    split
    · exact ⟨v2, rfl⟩
    · next hne =>
      apply ih
      simp only [List.map_cons, List.mem_cons] at h
      rcases h with h | h
      · exact absurd h.symm hne
      · exact h

theorem popKey_of_mem (ns : List (String × Value)) (k : String)
    (h : k ∈ ns.map Prod.fst) :
    ∃ v, popKey ns k = some (v, ns.filter (fun kv => decide (kv.1 ≠ k))) := by
  obtain ⟨v, hv⟩ := lookupKey_mem ns k h
  exact ⟨v, by unfold popKey; rw [hv]⟩

theorem popKey_inv (ns : List (String × Value)) (k : String) (v : Value)
    (rest : List (String × Value)) (h : popKey ns k = some (v, rest)) :
    rest = ns.filter (fun kv => decide (kv.1 ≠ k)) := by
  unfold popKey at h
  split at h
  · exact Option.noConfusion h
  · injection h with h
    exact (congrArg Prod.snd h).symm

theorem mem_keys_filterNe (ns : List (String × Value)) (k n : String)
    (hne : n ≠ k) (h : n ∈ ns.map Prod.fst) :
    n ∈ (ns.filter (fun kv => decide (kv.1 ≠ k))).map Prod.fst := by
  simp only [List.mem_map] at h ⊢
  obtain ⟨kv, hkv, hfst⟩ := h
  refine ⟨kv, List.mem_filter.mpr ⟨hkv, ?_⟩, hfst⟩
  simp [hfst, hne]

theorem hasKey_filterNe_self (ns : List (String × Value)) (k : String) :
    hasKey (ns.filter (fun kv => decide (kv.1 ≠ k))) k = false := by
  unfold hasKey
  rw [decide_eq_false_iff_not]
  simp only [List.mem_map, List.mem_filter]
  rintro ⟨x, ⟨hx, hd⟩, hfst⟩
  exact (of_decide_eq_true hd) hfst

theorem initNamespace_keys (specs : List ArgSpec) :
    (initNamespace specs).map Prod.fst = specs.map ArgSpec.dest := by
  unfold initNamespace
  simp [List.map_map, Function.comp]

theorem parse_args_keys (pt : ParserType) (specs : List ArgSpec) (toks : List String)
    (ns : List (String × Value)) (h : parse_args pt specs toks = .ok ns)
    (n : String) (hn : n ∈ specs.map ArgSpec.dest) : n ∈ ns.map Prod.fst := by
  unfold parse_args at h
  split at h
  · rename_i ns2 heq
    injection h with h
    subst h
    exact parseLoop_keys _ _ _ _ _ _ _ heq n (by rw [initNamespace_keys]; exact hn)
  · exact Except.noConfusion h

theorem parse_args_error_shape (pt : ParserType) (specs : List ArgSpec)
    (toks : List String) (e : RunError) (h : parse_args pt specs toks = .error e) :
    ∃ f, e = liftFailure pt f := by
  unfold parse_args at h
  split at h
  · exact Except.noConfusion h
  · rename_i f heq
    injection h with h
    exact ⟨f, h.symm⟩

/- ----------------------------------------------------------------- -/
/- Claim theorems.                                                   -/
/- ----------------------------------------------------------------- -/

/-- Claim C1 (code bug): `with_state` is specified never to mutate the
receiver, but line 310 of api.py (`self._state = kwargs`) rebinds the
receiver's bound state before the new handle is built.  At a concrete
handle with empty bound state, after `with_state` the receiver's state
equals the supplied keyword set (so a subsequent `run` on the receiver
passes the bound value to the wrapped callable), contradicting the claim
that the receiver is left unchanged. -/
theorem with_state_mutates_receiver :
    ((Command.with_state
        { parser := { ptype := .fpArgumentParser, args := [] },
          varargName := none, state := [] }
        [("user_name", Value.scalar (.str "Josh"))]).1.state
      = [("user_name", Value.scalar (.str "Josh"))])
    ∧ ((Command.with_state
        { parser := { ptype := .fpArgumentParser, args := [] },
          varargName := none, state := [] }
        [("user_name", Value.scalar (.str "Josh"))]).1.state ≠ [])
    ∧ ((Command.with_state
        { parser := { ptype := .fpArgumentParser, args := [] },
          varargName := none, state := [] }
        [("user_name", Value.scalar (.str "Josh"))]).1.run []
      = .ok ([], [("user_name", Value.scalar (.str "Josh"))])) := by
  decide

/-- Claim C2 (code bug): the spec and example 01 state that `run` may be
called with the token sequence omitted, in which case the process's own
`argv[1:]` is parsed; but `Command.run` declares `cmd_args` with no
default, so Python call binding of `run()` with the argument omitted
raises a `TypeError` before any parsing can happen, while an explicit
token list binds fine. -/
theorem run_call_without_tokens_fails :
    bindPositionalCall runMethodSig []
      = .error (.typeError "missing 1 required positional argument: cmd_args")
    ∧ bindPositionalCall runMethodSig [Value.list [Scalar.str "x"]]
      = .ok [("cmd_args", Value.list [Scalar.str "x"])] := by
  decide

/-- Claim C3: boolean classification.  Default `True` yields `store_false`
(flag presence stores `false`), default `False` yields `store_true`, and
no default yields a `store` action whose constructor `_bool_from_str`
maps, case-insensitively, y/yes/true/1 to `true` and n/no/false/0 to
`false`, and raises an invalid-value error on every other token. -/
theorem bool_classification :
    johnny_simple .bool (.val (.scalar (.bool true))) = .ok ("store_false", .pyClass .bool, none)
    ∧ johnny_simple .bool (.val (.scalar (.bool false))) = .ok ("store_true", .pyClass .bool, none)
    ∧ johnny_simple .bool .empty = .ok ("store", .boolFromStr, none)
    ∧ (∀ w : String,
        (strLower w = "y" ∨ strLower w = "yes" ∨ strLower w = "true" ∨ strLower w = "1") →
        _bool_from_str w = .ok true)
    ∧ (∀ w : String,
        (strLower w = "n" ∨ strLower w = "no" ∨ strLower w = "false" ∨ strLower w = "0") →
        _bool_from_str w = .ok false)
    ∧ (∀ w : String,
        ¬(strLower w = "y" ∨ strLower w = "yes" ∨ strLower w = "true" ∨ strLower w = "1"
          ∨ strLower w = "n" ∨ strLower w = "no" ∨ strLower w = "false" ∨ strLower w = "0") →
        _bool_from_str w = .error ("invalid value for boolean: " ++ w)) := by
  refine ⟨rfl, rfl, rfl, ?_, ?_, ?_⟩
  · intro w h
    unfold _bool_from_str
    rw [if_pos h]
  · intro w h
    have h1 : ¬(strLower w = "y" ∨ strLower w = "yes" ∨ strLower w = "true" ∨ strLower w = "1") := by
      rcases h with h | h | h | h <;> rw [h] <;> decide
    unfold _bool_from_str
    rw [if_neg h1, if_pos h]
  · intro w h
    have h1 : ¬(strLower w = "y" ∨ strLower w = "yes" ∨ strLower w = "true" ∨ strLower w = "1") :=
      fun hc => h (by tauto)
    have h2 : ¬(strLower w = "n" ∨ strLower w = "no" ∨ strLower w = "false" ∨ strLower w = "0") :=
      fun hc => h (by tauto)
    unfold _bool_from_str
    rw [if_neg h1, if_neg h2]

/-- Witness for C3 at concrete tokens. -/
theorem bool_classification_witness :
    _bool_from_str "TRUE" = .ok true
    ∧ _bool_from_str "No" = .ok false
    ∧ _bool_from_str "maybe" = .error ("invalid value for boolean: " ++ "maybe") := by
  refine ⟨?_, ?_, ?_⟩
  · exact bool_classification.2.2.2.1 "TRUE" (by decide)
  · exact bool_classification.2.2.2.2.1 "No" (by decide)
  · exact bool_classification.2.2.2.2.2 "maybe" (by decide)

/-- Counterexample for claim C4: the claim asserts enum lookup succeeds on
any case variant of a member name, but for a member whose name is not all
uppercase, a lowercased token matches neither the exact lookup nor the
uppercased lookup, so `_enum_from_str` fails on `"red"` although `"Red"`
is a member. -/
theorem enum_mixed_case_counterexample :
    _enum_from_str ⟨"Mode", ["Red", "Blue"]⟩ "red" = .error ("no name " ++ "red" ++ " in " ++ "Mode")
    ∧ _enum_from_str ⟨"Mode", ["Red", "Blue"]⟩ "red" ≠ .ok (.enumMember "Mode" "Red") := by
  decide

/-- Claim C4 (amended): `_enum_from_str` yields member `M` for the exact
token `M`, and for any token whose uppercasing is `M` provided the token
is not itself a member name (so case-insensitivity holds exactly for
all-uppercase member names); a token that matches no member name exactly
or by uppercasing fails with the invalid-value error. -/
theorem enum_lookup_amended (e : EnumDef) :
    (∀ M w, M ∈ e.members → (w = M ∨ (strUpper w = M ∧ w ∉ e.members)) →
      _enum_from_str e w = .ok (.enumMember e.ename M))
    ∧ (∀ w, w ∉ e.members → strUpper w ∉ e.members →
      _enum_from_str e w = .error ("no name " ++ w ++ " in " ++ e.ename)) := by
  constructor
  · intro M w hM h
    rcases h with rfl | ⟨hup, hnm⟩
    · simp [_enum_from_str, enumGetItem, hM]
    · simp [_enum_from_str, enumGetItem, hnm, hup, hM]
  · intro w h1 h2
    simp [_enum_from_str, enumGetItem, h1, h2]

/-- Witness for the amended C4: for an all-uppercase member, a mixed-case
token succeeds; a non-member token fails. -/
theorem enum_lookup_amended_witness :
    _enum_from_str ⟨"Color", ["RED", "GREEN"]⟩ "rEd" = .ok (.enumMember "Color" "RED")
    ∧ _enum_from_str ⟨"Color", ["RED", "GREEN"]⟩ "purple"
        = .error ("no name " ++ "purple" ++ " in " ++ "Color") := by
  constructor
  · exact (enum_lookup_amended _).1 "RED" "rEd" (by decide) (Or.inr (by decide))
  · exact (enum_lookup_amended _).2 "purple" (by decide) (by decide)

/-- Claim C9: every action either classifier can return is one of `store`,
`store_true`, `store_false`, `append`, and for each of those the
action-dispatch of the compiler succeeds, so its unsupported-action
failure branch is unreachable for classifier output. -/
theorem classifier_actions_supported :
    (∀ (t : BasicType) (d : PyDefault) (a : String) (c : Ctor) (ch : Option (List String)),
        johnny_simple t d = .ok (a, c, ch) →
        a = "store" ∨ a = "store_true" ∨ a = "store_false" ∨ a = "append")
    ∧ (∀ (sq : Bool) (nm : String) (ar : List BasicType) (d : PyDefault)
        (a : String) (c : Ctor) (ch : Option (List String)),
        johnny_generic sq nm ar d = .ok (a, c, ch) →
        a = "store" ∨ a = "store_true" ∨ a = "store_false" ∨ a = "append")
    ∧ (∀ (a : String) (c : Ctor) (ch : Option (List String)),
        (a = "store" ∨ a = "store_true" ∨ a = "store_false" ∨ a = "append") →
        ∃ r, applyActionParams a c ch = .ok r) := by
  refine ⟨?_, ?_, ?_⟩
  · intro t d a c ch h
    unfold johnny_simple at h
    split at h <;> simp_all
  · intro sq nm ar d a c ch h
    unfold johnny_generic at h
    split at h <;> simp_all
  · intro a c ch h
    rcases h with rfl | rfl | rfl | rfl <;> exact ⟨_, rfl⟩

/-- Witness for C9: the action of the no-default boolean classification is
in the supported set and its dispatch succeeds. -/
theorem classifier_actions_supported_witness :
    ("store" = "store" ∨ "store" = "store_true" ∨ "store" = "store_false" ∨ "store" = "append")
    ∧ ∃ r, applyActionParams "store" .boolFromStr none = .ok r :=
  ⟨classifier_actions_supported.1 .bool .empty "store" .boolFromStr none rfl,
   classifier_actions_supported.2.2 "store" .boolFromStr none (Or.inl rfl)⟩

/- ----------------------------------------------------------------- -/
/- Inversion helpers for the per-parameter compilation.              -/
/- ----------------------------------------------------------------- -/

/-- A union member re-injected into the annotation type is never a union,
so `resolveOptional` passes it through unchanged. -/
theorem resolveOptional_lift (t : NonUnionType) (d : PyDefault) :
    resolveOptional (liftNonUnion t) d = .ok (liftNonUnion t, d) := by
  cases t <;> rfl

/-- Inversion of the per-parameter compilation: a successfully produced
`ArgSpec` is exactly the record assembled from the resolved type, the
classification, and the action dispatch. -/
theorem processParamBody_inv (p : Param) (spec : ArgSpec)
    (h : processParamBody p = .ok spec) :
    ∃ rt d2 action ctor choices ctorOpt choicesOpt,
      resolveOptional p.annot p.default = .ok (rt, d2)
      ∧ classify rt d2 p.name = .ok (action, ctor, choices)
      ∧ applyActionParams action ctor choices = .ok (ctorOpt, choicesOpt)
      ∧ spec = { argName := make_argument_name p.name (!d2.isEmpty)
                 dest := p.name
                 action := action
                 ctor := ctorOpt
                 choices := choicesOpt
                 default := d2
                 nargsPlus := p.kind.isVarPositional } := by
  unfold processParamBody at h
  split at h
  · simp at h
  next rt d2 heq =>
    split at h
    · simp at h
    next action ctor choices heq2 =>
      split at h
      · simp at h
      next ctorOpt choicesOpt heq3 =>
        refine ⟨rt, d2, action, ctor, choices, ctorOpt, choicesOpt, heq, heq2, heq3, ?_⟩
        injection h with h
        exact h.symm

/-- Claim C6: a union of exactly one non-null type and null is unwrapped to
the inner type (in either member order), the effective default becomes
null when no explicit default was given, the parameter is then compiled
exactly as a parameter annotated with the inner type and that effective
default, and with no explicit default the produced argument is an
optional flag. -/
theorem optional_union_unwrap (inner : NonUnionType) (d : PyDefault)
    (name : String) (kind : ParamKind)
    (hne : inner ≠ .basic .noneType) :
    (resolveOptional (.union [inner, .basic .noneType]) d
      = .ok (liftNonUnion inner, if d = .empty then .val (.scalar .none) else d))
    ∧ (resolveOptional (.union [.basic .noneType, inner]) d
      = .ok (liftNonUnion inner, if d = .empty then .val (.scalar .none) else d))
    ∧ (processParamBody
        { name := name, kind := kind, annot := .union [inner, .basic .noneType], default := d }
      = processParamBody
        { name := name, kind := kind, annot := liftNonUnion inner,
          default := if d = .empty then .val (.scalar .none) else d })
    ∧ (processParamBody
        { name := name, kind := kind, annot := .union [.basic .noneType, inner], default := d }
      = processParamBody
        { name := name, kind := kind, annot := liftNonUnion inner,
          default := if d = .empty then .val (.scalar .none) else d })
    ∧ (∀ spec : ArgSpec,
        processParamBody
          { name := name, kind := kind, annot := .union [inner, .basic .noneType],
            default := .empty } = .ok spec →
        spec.argName = "--" ++ replaceUnderscores name) := by
  have hopt1 : _is_optional_type [inner, .basic .noneType] = true := by
    simp [_is_optional_type]
  have hopt2 : _is_optional_type [.basic .noneType, inner] = true := by
    simp [_is_optional_type]
  have hun1 : _unwrap_optional_type [inner, .basic .noneType] = inner := by
    simp [_unwrap_optional_type, indexOfNone, hne]
  have hun2 : _unwrap_optional_type [.basic .noneType, inner] = inner := by
    simp [_unwrap_optional_type, indexOfNone]
  have hres1 : resolveOptional (.union [inner, .basic .noneType]) d
      = .ok (liftNonUnion inner, if d = .empty then .val (.scalar .none) else d) := by
    simp [resolveOptional, hopt1, hun1]
  have hres2 : resolveOptional (.union [.basic .noneType, inner]) d
      = .ok (liftNonUnion inner, if d = .empty then .val (.scalar .none) else d) := by
    simp [resolveOptional, hopt2, hun2]
  refine ⟨hres1, hres2, ?_, ?_, ?_⟩
  · unfold processParamBody
    rw [hres1, resolveOptional_lift]
  · unfold processParamBody
    rw [hres2, resolveOptional_lift]
  · intro spec h
    obtain ⟨rt, d2, action, ctor, choices, ctorOpt, choicesOpt, hr, _, _, hs⟩ :=
      processParamBody_inv _ _ h
    have hr0 : resolveOptional (.union [inner, .basic .noneType]) (.empty : PyDefault)
        = .ok (liftNonUnion inner, .val (.scalar .none)) := by
      simp [resolveOptional, hopt1, hun1]
    rw [hr0] at hr
    injection hr with hr
    have hd2 : d2 = .val (.scalar .none) := by
      have h2 := congrArg Prod.snd hr
      simpa using h2.symm
    subst hs
    simp [hd2, make_argument_name, PyDefault.isEmpty]

/-- Witness for C6 at `int | None` with no default (the `pets`-style
optional parameter shape of example 01, at scalar type). -/
theorem optional_union_unwrap_witness :
    resolveOptional (.union [.basic .int, .basic .noneType]) .empty
      = .ok (.basic .int, .val (.scalar .none))
    ∧ processParamBody
        { name := "age", kind := .positionalOrKeyword,
          annot := .union [.basic .int, .basic .noneType], default := .empty }
      = processParamBody
        { name := "age", kind := .positionalOrKeyword,
          annot := .basic .int, default := .val (.scalar .none) }
    ∧ resolveOptional (.union [.basic .noneType, .basic .int]) .empty
      = .ok (.basic .int, .val (.scalar .none))
    ∧ ({ argName := "--age", dest := "age", action := "store",
         ctor := some (.pyClass .int), choices := none,
         default := .val (.scalar .none), nargsPlus := false } : ArgSpec).argName
      = "--" ++ replaceUnderscores "age" := by
  have h := optional_union_unwrap (.basic .int) .empty "age" .positionalOrKeyword (by decide)
  exact ⟨h.1, h.2.2.1, h.2.1, h.2.2.2.2 _ (by decide)⟩

/-- Claim C7: the external argument name is decided by the presence of the
(possibly synthesized) default: a defaulted parameter becomes a
dash-prefixed long flag with underscores turned into hyphens, and a
primitive-scalar parameter with no default keeps its bare name and is a
required positional (parsing an empty token list fails). -/
theorem argument_naming (p : Param) (spec : ArgSpec)
    (hpn : strStartsWith p.name "--" = false)
    (h : processParamBody p = .ok spec) :
    (spec.default ≠ .empty → spec.argName = "--" ++ replaceUnderscores p.name)
    ∧ (spec.default = .empty → spec.argName = p.name)
    ∧ (p.default ≠ .empty → spec.default = p.default)
    ∧ ((p.annot = .basic .int ∨ p.annot = .basic .float ∨ p.annot = .basic .str) →
        p.default = .empty →
        spec.argName = p.name
        ∧ ∀ pt, ∃ e, parse_args pt [spec] [] = .error e) := by
  obtain ⟨rt, d2, action, ctor, choices, ctorOpt, choicesOpt, hr, hc, ha, hs⟩ :=
    processParamBody_inv _ _ h
  refine ⟨?_, ?_, ?_, ?_⟩
  · intro hd
    have hd2 : d2 ≠ .empty := by
      intro hx
      apply hd
      rw [hs, hx]
    subst hs
    cases d2 with
    | empty => exact absurd rfl hd2
    | val v => simp [make_argument_name, PyDefault.isEmpty]
  · intro hd
    have hd2 : d2 = .empty := by
      rw [hs] at hd
      exact hd
    subst hd2
    subst hs
    simp [make_argument_name, PyDefault.isEmpty]
  · intro hd
    have hkeep : d2 = p.default := by
      cases hann : p.annot with
      | union args =>
        rw [hann] at hr
        simp only [resolveOptional] at hr
        split at hr <;>
          first
            | (injection hr with hr; exact (congrArg Prod.snd hr).symm)
            | simp_all
      | basic b =>
        rw [hann] at hr
        simp only [resolveOptional] at hr
        injection hr with hr
        exact (congrArg Prod.snd hr).symm
      | generic sq n ar =>
        rw [hann] at hr
        simp only [resolveOptional] at hr
        injection hr with hr
        exact (congrArg Prod.snd hr).symm
      | annotated i dc =>
        rw [hann] at hr
        simp only [resolveOptional] at hr
        injection hr with hr
        exact (congrArg Prod.snd hr).symm
      | empty =>
        rw [hann] at hr
        simp only [resolveOptional] at hr
        injection hr with hr
        exact (congrArg Prod.snd hr).symm
    rw [hs, hkeep]
  · intro hprim hd
    have hr0 : resolveOptional p.annot p.default = .ok (p.annot, p.default) := by
      rcases hprim with hx | hx | hx <;> rw [hx] <;> rfl
    rw [hr0] at hr
    injection hr with hr
    have hd2 : d2 = .empty := by
      have h2 := congrArg Prod.snd hr
      simp at h2
      rw [← h2, hd]
    subst hd2
    have hname : spec.argName = p.name := by
      subst hs
      simp [make_argument_name, PyDefault.isEmpty]
    refine ⟨hname, ?_⟩
    intro pt
    refine ⟨liftFailure pt (.viaError "the following arguments are required"), ?_⟩
    have hsw : strStartsWith spec.argName "--" = false := by rw [hname]; exact hpn
    have hopts : [spec].filter (fun s => strStartsWith s.argName "--") = [] := by
      simp [List.filter_cons, List.filter_nil, hsw]
    have hpos : [spec].filter (fun s => !strStartsWith s.argName "--") = [spec] := by
      simp [List.filter_cons, List.filter_nil, hsw]
    have hloop : parseLoop ([] : List ArgSpec) [] [spec] none none (initNamespace [spec])
        = .error (.viaError "the following arguments are required") := rfl
    unfold parse_args
    rw [hopts, hpos, hloop]

/-- Witness for C7: a defaulted boolean becomes the hyphenated long flag,
and a no-default integer keeps its bare name and is required. -/
theorem argument_naming_witness :
    ({ argName := "--loves-python", dest := "loves_python", action := "store_true",
       ctor := none, choices := none,
       default := .val (.scalar (.bool false)), nargsPlus := false } : ArgSpec).argName
      = "--" ++ replaceUnderscores "loves_python"
    ∧ ({ argName := "your_age", dest := "your_age", action := "store",
         ctor := some (.pyClass .int), choices := none,
         default := .empty, nargsPlus := false } : ArgSpec).argName = "your_age"
    ∧ ∃ e, parse_args .fpArgumentParser
        [{ argName := "your_age", dest := "your_age", action := "store",
           ctor := some (.pyClass .int), choices := none,
           default := .empty, nargsPlus := false }] [] = .error e := by
  have h1 := argument_naming
    { name := "loves_python", kind := .positionalOrKeyword,
      annot := .basic .bool, default := .val (.scalar (.bool false)) }
    { argName := "--loves-python", dest := "loves_python", action := "store_true",
      ctor := none, choices := none,
      default := .val (.scalar (.bool false)), nargsPlus := false }
    (by decide) (by decide)
  have h2 := argument_naming
    { name := "your_age", kind := .positionalOrKeyword,
      annot := .basic .int, default := .empty }
    { argName := "your_age", dest := "your_age", action := "store",
      ctor := some (.pyClass .int), choices := none,
      default := .empty, nargsPlus := false }
    (by decide) (by decide)
  have h2p := h2.2.2.2 (Or.inl rfl) rfl
  exact ⟨h1.1 (by decide), h2p.1, h2p.2 .fpArgumentParser⟩

/-- Claim C8: for a handle built with the default configuration-surface
type (the funparse `ArgumentParser` subclass), every invocation-time
failure of `run` is a catchable raised error — a `RuntimeError` from the
overridden `error`, an `ArgumentError` re-raised under
`exit_on_error=False`, or a `TypeError` at dispatch — never a
`SystemExit` terminating the process. -/
theorem run_errors_are_catchable (params : List Param) (ignore : Option (List String))
    (cmd : Command) (hc : asArgParser params ignore = .ok cmd)
    (st : List (String × Value)) (toks : List String) (e : RunError)
    (h : Command.run { cmd with state := st } toks = .error e) :
    e.isCatchable = true := by
  have hpt : cmd.parser.ptype = .fpArgumentParser := by
    unfold asArgParser asArgParserInner at hc
    split at hc
    · exact Except.noConfusion hc
    · rename_i prs vn heq
      injection hc with hc
      rw [← hc]
      unfold makeParser at heq
      split at heq
      · exact Except.noConfusion heq
      · rename_i argsList vn2 heq2
        injection heq with heq
        have h3 := congrArg Prod.fst heq
        simp only at h3
        rw [← h3]
  unfold Command.run at h
  split at h
  · rename_i e2 heq
    injection h with h
    subst h
    obtain ⟨f, hf⟩ := parse_args_error_shape _ _ _ _ heq
    subst hf
    have hq : ({ cmd with state := st } : Command).parser.ptype = .fpArgumentParser := hpt
    rw [hq]
    cases f <;> rfl
  · rename_i ns heq
    split at h
    · split at h
      · rename_i e2 hm
        injection h with h
        subst h
        obtain ⟨k, hk⟩ := mergeKwargs_error_shape _ _ _ hm
        rw [hk]
        rfl
      · exact Except.noConfusion h
    · split at h
      · injection h with h; subst h; rfl
      · injection h with h; subst h; rfl
      · split at h
        · rename_i e2 hm
          injection h with h
          subst h
          obtain ⟨k, hk⟩ := mergeKwargs_error_shape _ _ _ hm
          rw [hk]
          rfl
        · exact Except.noConfusion h

/-- The compiler loop only ever appends to the accumulated argument
list. -/
theorem makeParserLoop_acc (ignore : Option (List String)) :
    ∀ (params : List Param) (acc : List ArgSpec) (vn : Option String)
      (out : List ArgSpec × Option String),
      makeParserLoop ignore params acc vn = .ok out → ∃ tail, out.1 = acc ++ tail := by
  intro params
  induction params with
  | nil =>
    intro acc vn out h
    injection h with h
    exact ⟨[], by simp [← h]⟩
  | cons p ps ih =>
    intro acc vn out h
    unfold makeParserLoop at h
    split at h
    · exact ih _ _ _ h
    · split at h
      · exact Except.noConfusion h
      · rename_i spec heq
        obtain ⟨tail, ht⟩ := ih _ _ _ h
        exact ⟨spec :: tail, by simp [ht]⟩

/-- Once the recorded variadic name is the distinguished one, the rest of
the loop keeps it (any later variadic parameter has the same name). -/
theorem makeParserLoop_vn_keeps (ignore : Option (List String)) (pname : String) :
    ∀ (params : List Param),
      (∀ q ∈ params, q.kind.isVarPositional = true → q.name = pname) →
      ∀ (acc : List ArgSpec) (vn : Option String) (out : List ArgSpec × Option String),
        makeParserLoop ignore params acc vn = .ok out →
        vn = some pname → out.2 = some pname := by
  intro params
  induction params with
  | nil =>
    intro _ acc vn out h hvn
    injection h with h
    rw [← h]
    exact hvn
  | cons p ps ih =>
    intro huniq acc vn out h hvn
    unfold makeParserLoop at h
    split at h
    · exact ih (fun q hq => huniq q (List.mem_cons_of_mem _ hq)) _ _ _ h hvn
    · split at h
      · exact Except.noConfusion h
      · rename_i spec heq
        by_cases hvar : p.kind.isVarPositional = true
        · have hpn : p.name = pname := huniq p (List.mem_cons_self _ _) hvar
          exact ih (fun q hq => huniq q (List.mem_cons_of_mem _ hq)) _ _ _ h
            (by simp [hvar, hpn])
        · have hvar2 : p.kind.isVarPositional = false := by simpa using hvar
          exact ih (fun q hq => huniq q (List.mem_cons_of_mem _ hq)) _ _ _ h
            (by simp [hvar2, hvn])

/-- The compiler loop records the (unique) non-ignored variadic-positional
parameter: the final variadic name is its name and a registered argument
with its destination carries the one-or-more arity. -/
theorem makeParserLoop_vararg (ignore : Option (List String)) (p : Param)
    (hk : p.kind.isVarPositional = true) (hni : isIgnored ignore p.name = false) :
    ∀ (params : List Param), p ∈ params →
      (∀ q ∈ params, q.kind.isVarPositional = true → q.name = p.name) →
      ∀ (acc : List ArgSpec) (vn : Option String) (out : List ArgSpec × Option String),
        makeParserLoop ignore params acc vn = .ok out →
        out.2 = some p.name
        ∧ ∃ s, s ∈ out.1 ∧ s.dest = p.name ∧ s.nargsPlus = true := by
  intro params
  induction params with
  | nil => intro hp; simp at hp
  | cons q ps ih =>
    intro hp huniq acc vn out h
    unfold makeParserLoop at h
    split at h
    · rename_i hig
      have hpq : p ≠ q := by
        intro he
        rw [← he] at hig
        rw [hni] at hig
        exact Bool.noConfusion hig
      have hp2 : p ∈ ps := by
        rcases List.mem_cons.mp hp with h1 | h1
        · exact absurd h1 hpq
        · exact h1
      exact ih hp2 (fun r hr => huniq r (List.mem_cons_of_mem _ hr)) _ _ _ h
    · split at h
      · exact Except.noConfusion h
      · rename_i spec heq
        by_cases hp2 : p ∈ ps
        · exact ih hp2 (fun r hr => huniq r (List.mem_cons_of_mem _ hr)) _ _ _ h
        · have hpq : p = q := by
            rcases List.mem_cons.mp hp with h1 | h1
            · exact h1
            · exact absurd h1 hp2
          subst hpq
          constructor
          · exact makeParserLoop_vn_keeps ignore p.name ps
              (fun r hr => huniq r (List.mem_cons_of_mem _ hr)) _ _ _ h (by simp [hk])
          · obtain ⟨tail, ht⟩ := makeParserLoop_acc ignore ps _ _ _ h
            obtain ⟨rt, d2, action, ctor, choices, ctorOpt, choicesOpt, hr2, hc2, ha2, hs2⟩ :=
              processParamBody_inv _ _ heq
            refine ⟨spec, ?_, ?_, ?_⟩
            · rw [ht]; simp
            · rw [hs2]
            · rw [hs2]; simpa using hk

/-- Claim C5: the compiler registers a (unique, non-ignored)
variadic-positional parameter with one-or-more arity and records its name;
at dispatch time `run` pops that entry out of the parsed values and passes
its elements as the leading positional arguments, and the keyword mapping
handed to the wrapped callable never contains the variadic name (given the
bound state does not itself bind it). -/
theorem vararg_registration_and_dispatch
    (params : List Param) (ignore : Option (List String)) (pt : ParserType)
    (p : Param)
    (hk : p.kind.isVarPositional = true)
    (hni : isIgnored ignore p.name = false)
    (hp : p ∈ params)
    (huniq : ∀ q ∈ params, q.kind.isVarPositional = true → q.name = p.name)
    (out : ParserSpec × Option String)
    (hmk : makeParser params ignore pt = .ok out) :
    out.2 = some p.name
    ∧ (∃ s, s ∈ out.1.args ∧ s.dest = p.name ∧ s.nargsPlus = true)
    ∧ (∀ (st : List (String × Value)) (toks : List String)
        (vs : List Scalar) (kw : List (String × Value)),
        hasKey st p.name = false →
        Command.run { parser := out.1, varargName := out.2, state := st } toks = .ok (vs, kw) →
        hasKey kw p.name = false
        ∧ ∃ ns rest, parse_args out.1.ptype out.1.args toks = .ok ns
            ∧ popKey ns p.name = some (Value.list vs, rest)
            ∧ kw = st ++ rest) := by
  unfold makeParser at hmk
  split at hmk
  · exact Except.noConfusion hmk
  · rename_i argsList vn heq
    injection hmk with hmk
    obtain ⟨hvn, hspec⟩ := makeParserLoop_vararg ignore p hk hni params hp huniq [] none _ heq
    have hvn2 : vn = some p.name := hvn
    subst hvn2
    refine ⟨?_, ?_, ?_⟩
    · rw [← hmk]
    · rw [← hmk]
      simpa using hspec
    · rw [← hmk]
      dsimp only
      intro st toks vs kw hst h
      unfold Command.run at h
      dsimp only at h
      split at h
      · exact Except.noConfusion h
      · rename_i ns hpa
        split at h
        · exact Except.noConfusion h
        · exact Except.noConfusion h
        · rename_i vs2 rest hpop
          split at h
          · exact Except.noConfusion h
          · rename_i kw2 hm
            injection h with h
            have hv := congrArg Prod.fst h
            have hw := congrArg Prod.snd h
            simp only at hv hw
            have hkw : kw = st ++ rest := by
              rw [← hw]
              exact mergeKwargs_ok _ _ _ hm
            have hrest := popKey_inv _ _ _ _ hpop
            constructor
            · rw [hkw, hasKey_append, hst, hrest, hasKey_filterNe_self]
              rfl
            · refine ⟨ns, rest, hpa, ?_, hkw⟩
              rw [← hv]
              exact hpop

/-- A compiled configuration consisting of a single registered
variadic-positional argument (example-08 shape, `*pet_names: str`). -/
def varargOnlyParser : ParserSpec :=
  { ptype := .fpArgumentParser,
    args := [{ argName := "pet_names", dest := "pet_names", action := "store",
               ctor := some (.pyClass .str), choices := none,
               default := .empty, nargsPlus := true }] }

/-- Counterexample for claim C10 as frozen: the variadic-positional
parameter is itself a registered (non-ignored) parameter, yet when bound
state binds its name `run` does not fail with a duplicate-keyword error —
the parsed entry is popped out of the parsed values before the keyword
merge, the merge succeeds, and the call record is produced with the stale
state entry as a keyword argument (in Python the call then fails only at
call binding, with an unexpected-keyword `TypeError`, since a `*args`
parameter cannot receive a keyword). -/
theorem bound_state_vararg_no_duplicate :
    Command.run
        { parser := varargOnlyParser, varargName := some "pet_names",
          state := [("pet_names", Value.scalar (.str "stale"))] }
        ["Goofy"]
      = .ok ([Scalar.str "Goofy"], [("pet_names", Value.scalar (.str "stale"))]) := by
  decide

/-- Claim C10 (amended): if the bound state binds a name that is also a
registered (non-ignored) parameter other than the recorded
variadic-positional one, `run` never returns normally, and when parsing
succeeds (and the variadic entry, if any, pops as usual) the call fails
with a duplicate-keyword `TypeError`, because the parsing engine produces
a value for every registered destination and both mappings are merged as
keyword arguments. -/
theorem bound_state_conflict_duplicate_keyword
    (parser : ParserSpec) (vn : Option String) (st : List (String × Value))
    (nm : String) (toks : List String)
    (hstate : hasKey st nm = true)
    (hreg : nm ∈ parser.args.map ArgSpec.dest)
    (hnv : vn ≠ some nm) :
    (∀ r, Command.run { parser := parser, varargName := vn, state := st } toks ≠ .ok r)
    ∧ (∀ ns, parse_args parser.ptype parser.args toks = .ok ns →
        (vn = none ∨ ∃ m vs rest, vn = some m ∧ popKey ns m = some (Value.list vs, rest)) →
        ∃ k, Command.run { parser := parser, varargName := vn, state := st } toks
              = .error (.duplicateKeyword k)) := by
  have hmem : ∀ ns, parse_args parser.ptype parser.args toks = .ok ns →
      nm ∈ ns.map Prod.fst :=
    fun ns hpa => parse_args_keys _ _ _ _ hpa nm hreg
  have hstmem : nm ∈ st.map Prod.fst := (hasKey_eq_true_iff _ _).mp hstate
  cases vn with
  | none =>
    constructor
    · intro r h
      unfold Command.run at h
      dsimp only at h
      split at h
      · exact Except.noConfusion h
      · rename_i ns hpa
        split at h
        · exact Except.noConfusion h
        · rename_i kw hm
          obtain ⟨k, hk⟩ := mergeKwargs_dup ns st nm (hmem ns hpa) hstmem
          rw [hk] at hm
          exact Except.noConfusion hm
    · intro ns hpa hcase
      obtain ⟨k, hk⟩ := mergeKwargs_dup ns st nm (hmem ns hpa) hstmem
      exact ⟨k, by simp only [Command.run, hpa, hk]⟩
  | some m =>
    have hne : nm ≠ m := by
      intro he
      exact hnv (by rw [he])
    constructor
    · intro r h
      unfold Command.run at h
      dsimp only at h
      split at h
      · exact Except.noConfusion h
      · rename_i ns hpa
        split at h
        · exact Except.noConfusion h
        · exact Except.noConfusion h
        · rename_i vs rest hpop
          split at h
          · exact Except.noConfusion h
          · rename_i kw hm
            have hrest := popKey_inv _ _ _ _ hpop
            have hmemrest : nm ∈ rest.map Prod.fst := by
              rw [hrest]
              exact mem_keys_filterNe _ _ _ hne (hmem ns hpa)
            obtain ⟨k, hk⟩ := mergeKwargs_dup rest st nm hmemrest hstmem
            rw [hk] at hm
            exact Except.noConfusion hm
    · intro ns hpa hcase
      rcases hcase with hvnone | ⟨m2, vs, rest, hvm, hpop⟩
      · exact Option.noConfusion hvnone
      · injection hvm with hvm
        subst hvm
        have hrest := popKey_inv _ _ _ _ hpop
        have hmemrest : nm ∈ rest.map Prod.fst := by
          rw [hrest]
          exact mem_keys_filterNe _ _ _ hne (hmem ns hpa)
        obtain ⟨k, hk⟩ := mergeKwargs_dup rest st nm hmemrest hstmem
        refine ⟨k, ?_⟩
        simp only [Command.run, hpa, hpop, hk]

/-- Witness for C8: a bad boolean token on a concretely compiled handle
surfaces as a catchable `ArgumentError`. -/
theorem run_errors_are_catchable_witness :
    RunError.isCatchable (.argumentError "argument aaa: invalid value for boolean: maybe") = true := by
  have hc : asArgParser
      [{ name := "aaa", kind := .positionalOrKeyword, annot := .basic .bool, default := .empty }]
      none
      = .ok { parser := { ptype := .fpArgumentParser,
                          args := [{ argName := "aaa", dest := "aaa", action := "store",
                                     ctor := some .boolFromStr, choices := none,
                                     default := .empty, nargsPlus := false }] },
              varargName := none, state := [] } := by decide
  exact run_errors_are_catchable _ none _ hc [] ["maybe"] _ (by decide)

/-- The signature of example 08: `f(*pet_names: str, your_name: str = "John")`. -/
def ex08params : List Param :=
  [{ name := "pet_names", kind := .varPositional, annot := .basic .str, default := .empty },
   { name := "your_name", kind := .positionalOrKeyword, annot := .basic .str,
     default := .val (.scalar (.str "John")) }]

/-- The compiled configuration of example 08. -/
def ex08out : ParserSpec × Option String :=
  ({ ptype := .fpArgumentParser,
     args := [{ argName := "pet_names", dest := "pet_names", action := "store",
                ctor := some (.pyClass .str), choices := none,
                default := .empty, nargsPlus := true },
              { argName := "--your-name", dest := "your_name", action := "store",
                ctor := some (.pyClass .str), choices := none,
                default := .val (.scalar (.str "John")), nargsPlus := false }] },
   some "pet_names")

/-- Witness for C5 on the example-08 signature and tokens. -/
theorem vararg_registration_and_dispatch_witness :
    makeParser ex08params none .fpArgumentParser = .ok ex08out
    ∧ ex08out.2 = some "pet_names"
    ∧ hasKey [("your_name", Value.scalar (.str "Johnny"))] "pet_names" = false
    ∧ ∃ ns rest,
        parse_args ex08out.1.ptype ex08out.1.args
            ["Goofy", "Larry", "--your-name", "Johnny"] = .ok ns
        ∧ popKey ns "pet_names" = some (Value.list [Scalar.str "Goofy", Scalar.str "Larry"], rest)
        ∧ [("your_name", Value.scalar (.str "Johnny"))] = [] ++ rest := by
  have hmk : makeParser ex08params none .fpArgumentParser = .ok ex08out := by decide
  have h := vararg_registration_and_dispatch ex08params none .fpArgumentParser
      { name := "pet_names", kind := .varPositional, annot := .basic .str, default := .empty }
      rfl rfl (by decide) (by decide) ex08out hmk
  have h3 := h.2.2 [] ["Goofy", "Larry", "--your-name", "Johnny"]
      [Scalar.str "Goofy", Scalar.str "Larry"]
      [("your_name", Value.scalar (.str "Johnny"))]
      (by decide) (by decide)
  exact ⟨hmk, h.1, h3.1, h3.2⟩

/-- The compiled configuration of example 05 without its ignore set:
`f(user_address: str, is_foreigner: bool = False)`. -/
def ex05parser : ParserSpec :=
  { ptype := .fpArgumentParser,
    args := [{ argName := "user_address", dest := "user_address", action := "store",
               ctor := some (.pyClass .str), choices := none,
               default := .empty, nargsPlus := false },
             { argName := "--is-foreigner", dest := "is_foreigner", action := "store_true",
               ctor := none, choices := none,
               default := .val (.scalar (.bool false)), nargsPlus := false }] }

/-- Witness for C10: binding `user_address` in state while it is also a
registered parameter makes a concrete `run` fail with the
duplicate-keyword error. -/
theorem bound_state_conflict_witness :
    ∃ k, Command.run
        { parser := ex05parser, varargName := none,
          state := [("user_address", Value.scalar (.str "somewhere"))] }
        ["addr"]
      = .error (.duplicateKeyword k) := by
  have h := bound_state_conflict_duplicate_keyword ex05parser none
      [("user_address", Value.scalar (.str "somewhere"))] "user_address" ["addr"]
      (by decide) (by decide) (by decide)
  exact h.2
    [("user_address", Value.scalar (.str "addr")), ("is_foreigner", Value.scalar (.bool false))]
    (by decide) (Or.inl rfl)

end Funparse
